import Mathlib

/-!
Shallow embedding of the ghost-protocol Solana program
(src/solana-program/src/lib.rs) and verification of the frozen claims.

Modelling conventions:
* `Pubkey` and 32-byte ids are modelled as `Nat` (opaque, compared for
  equality only); `Pubkey::default()` is `0`.
* Rust `u64` values are `Nat` together with explicit wrapping: release-mode
  `+=` / `-=` on `u64` wrap modulo `2^64` (`wadd`/`wsub`), and the narrowing
  cast `as u64` from `u128` truncates modulo `2^64` (`wcast`).  A `u128`
  product of two `u64` values never exceeds `2^128`, so the widened
  multiply/divide itself is exact `Nat` arithmetic.
* Rust division by zero panics in every build profile; the panic aborts the
  call with no write, which we model as the distinguished error
  `PError.divideByZero`.
* Account-meta facts (is_signer, account.owner == program_id) are passed as
  explicit `Bool` parameters; account payloads are passed as structured
  values, with `Option` for slots whose deserialization may fail
  (`None`/`unwrap_or`-defaulted slots).
* The external primitives (system-program lamport transfer, `Clock::get()`)
  are out of scope per the spec: transfers are assumed to succeed, the
  timestamp is an explicit `now : Int` parameter.  `withdraw_from_pool`
  additionally returns the number of lamports paid out to the withdrawer.
-/

namespace GhostProtocol

/-- `2^64`, the modulus of Rust `u64` arithmetic. -/
def U64M : Nat := 2 ^ 64

/-- Wrapping `u64` addition: Rust release-mode `+` / `+=`. -/
def wadd (a b : Nat) : Nat := (a + b) % U64M

/-- Wrapping `u64` subtraction: Rust release-mode `-` / `-=`
(for `b < 2^64`, which holds for every in-model value). -/
def wsub (a b : Nat) : Nat := (a + U64M - b) % U64M

/-- Truncating cast `u128 as u64`. -/
def wcast (a : Nat) : Nat := a % U64M

/-- The error conditions surfaced by the program.  The first block mirrors
the `GhostError` enum; the remaining variants are the `ProgramError`s
returned directly by the pool handlers, named after the log line that
accompanies them in the source (`poolNotActive`, `notPositionOwner` and
`recipientMismatch` surface as `ProgramError::InvalidAccountData`;
`insufficientShares` and `insufficientLiquidity` both surface as
`ProgramError::InsufficientFunds`, distinguished only by their log line).
`divideByZero` models the Rust panic on `u128` division by zero. -/
inductive PError where
  | invalidInstruction
  | accountSerialization
  | accountDeserialization
  | unauthorizedAdmin
  | validatorExists
  | validatorLimit
  | missingSigner
  | unauthorizedValidator
  | incorrectProgramId
  | ghostExists
  | ghostMismatch
  | invalidState
  | poolNotActive
  | notPositionOwner
  | recipientMismatch
  | insufficientShares
  | insufficientLiquidity
  | divideByZero
  deriving DecidableEq

/-- `ProgramConfig` (the access-control registry). -/
structure ProgramConfig where
  admin : Nat
  validator_threshold : Nat
  max_validators : Nat
  validators : List Nat
  deriving DecidableEq

/-- `ProgramConfig::is_validator`: set membership in the validator list. -/
def ProgramConfig.is_validator (c : ProgramConfig) (key : Nat) : Bool :=
  c.validators.contains key

/-- The `GhostState` enum. -/
inductive GhostState where
  | none
  | created
  | locked
  | burned
  | minted
  | settled
  deriving DecidableEq

/-- `GhostAccount`.  The 64-byte `destination_address` is modelled as its
low and high 32-byte halves (`MintGhost` overwrites only the low half). -/
structure GhostAccount where
  ghost_id : Nat
  initiator : Nat
  source_token : Nat
  destination_token : Nat
  destination_chain : Nat
  dest_addr_lo : Nat
  dest_addr_hi : Nat
  state : GhostState
  amount : Nat
  lock_ts : Int
  burn_ts : Int
  mint_ts : Int
  burn_proof : Nat
  mint_proof : Nat
  is_remote : Bool
  remote_ack : Bool
  deriving DecidableEq

/-- The default `GhostAccount` substituted by `load_with_validator` when the
ghost slot does not deserialize (`try_from_slice(..).unwrap_or(..)`). -/
def defaultGhost : GhostAccount :=
  { ghost_id := 0, initiator := 0, source_token := 0, destination_token := 0
    destination_chain := 0, dest_addr_lo := 0, dest_addr_hi := 0
    state := GhostState.none, amount := 0, lock_ts := 0, burn_ts := 0
    mint_ts := 0, burn_proof := 0, mint_proof := 0
    is_remote := false, remote_ack := false }

/-- `LiquidityPool`. -/
structure LiquidityPool where
  seed : Nat
  total_deposited : Nat
  total_shares : Nat
  total_fees : Nat
  available_liquidity : Nat
  active : Bool
  deriving DecidableEq

/-- `LPPosition`. -/
structure LPPosition where
  owner : Nat
  pool : Nat
  shares : Nat
  deposited_at : Int
  deriving DecidableEq

/-- `PaymentIntent`. -/
structure PaymentIntent where
  intent_id : Nat
  sender_chain : Nat
  sender_address : Nat
  amount : Nat
  dest_token : Nat
  recipient : Nat
  executed : Bool
  timestamp : Int
  deriving DecidableEq

/-- `Processor::initialize` (renamed `initialize_config` here, since the
bare source name is unavailable).  `signer` is `signer.is_signer`, `owned`
is `config_account.owner == program_id`.  The handler never reads the
slot's existing bytes — `prior` is deliberately unused, exactly as the
source unconditionally serializes the fresh config over the account. -/
def Processor.initialize_config (signer owned : Bool) (_prior : Option ProgramConfig)
    (admin validator_threshold max_validators : Nat) : Except PError ProgramConfig :=
  if signer = false then .error .missingSigner
  else if owned = false then .error .incorrectProgramId
  else .ok { admin := admin, validator_threshold := validator_threshold
             max_validators := max_validators, validators := [] }

/-- `Processor::create_ghost`.  `cfgOwned` is the `load_config` owner check
on the config account (its decoded contents are discarded by the source),
`paySigner` is `payer.is_signer`, `gOwned` is
`ghost_account.owner == program_id`.  The handler never reads the existing
ghost record: it unconditionally overwrites the slot. -/
def Processor.create_ghost (cfgOwned paySigner gOwned : Bool) (payer : Nat)
    (ghost_id amount destination_chain addrLo addrHi source_token destination_token : Nat)
    (now : Int) : Except PError GhostAccount :=
  if cfgOwned = false then .error .incorrectProgramId
  else if paySigner = false then .error .missingSigner
  else if gOwned = false then .error .incorrectProgramId
  else .ok
    { ghost_id := ghost_id, initiator := payer, source_token := source_token
      destination_token := destination_token, destination_chain := destination_chain
      dest_addr_lo := addrLo, dest_addr_hi := addrHi
      state := GhostState.created, amount := amount, lock_ts := now
      burn_ts := 0, mint_ts := 0, burn_proof := 0, mint_proof := 0
      is_remote := false, remote_ack := false }

/-- `Processor::load_with_validator`: config owner check, validator
membership, validator signature, ghost-account owner check, deserialize the
ghost slot with a `None`-state default, and the ghost-id mismatch guard. -/
def Processor.load_with_validator (cfg : ProgramConfig) (cfgOwned : Bool)
    (vkey : Nat) (vSigner gOwned : Bool) (slot : Option GhostAccount)
    (ghost_id : Nat) : Except PError GhostAccount :=
  if cfgOwned = false then .error .incorrectProgramId
  else if cfg.is_validator vkey = false then .error .unauthorizedValidator
  else if vSigner = false then .error .missingSigner
  else if gOwned = false then .error .incorrectProgramId
  else
    let ghost := slot.getD defaultGhost
    if ghost.ghost_id ≠ ghost_id ∧ ghost.state ≠ GhostState.none then
      .error .ghostMismatch
    else .ok ghost

/-- `Processor::lock_ghost`: requires `Created`, moves to `Locked`. -/
def Processor.lock_ghost (cfg : ProgramConfig) (cfgOwned : Bool) (vkey : Nat)
    (vSigner gOwned : Bool) (slot : Option GhostAccount) (ghost_id : Nat)
    (now : Int) : Except PError GhostAccount :=
  match Processor.load_with_validator cfg cfgOwned vkey vSigner gOwned slot ghost_id with
  | .error e => .error e
  | .ok ghost =>
    if ghost.state ≠ GhostState.created then .error .invalidState
    else .ok { ghost with state := GhostState.locked, lock_ts := now }

/-- `Processor::burn_ghost`: requires `Locked`, moves to `Burned`. -/
def Processor.burn_ghost (cfg : ProgramConfig) (cfgOwned : Bool) (vkey : Nat)
    (vSigner gOwned : Bool) (slot : Option GhostAccount) (ghost_id burn_proof : Nat)
    (now : Int) : Except PError GhostAccount :=
  match Processor.load_with_validator cfg cfgOwned vkey vSigner gOwned slot ghost_id with
  | .error e => .error e
  | .ok ghost =>
    if ghost.state ≠ GhostState.locked then .error .invalidState
    else .ok { ghost with state := GhostState.burned, burn_ts := now, burn_proof := burn_proof }

/-- `Processor::mirror_ghost`: permitted when the slot is at `None` or
already `is_remote`; otherwise `GhostExists`.  Overwrites the record as an
inbound `Burned` transfer. -/
def Processor.mirror_ghost (cfg : ProgramConfig) (cfgOwned : Bool) (vkey : Nat)
    (vSigner gOwned : Bool) (slot : Option GhostAccount)
    (ghost_id source_chain amount burn_proof source_token destination_token : Nat)
    (now : Int) : Except PError GhostAccount :=
  match Processor.load_with_validator cfg cfgOwned vkey vSigner gOwned slot ghost_id with
  | .error e => .error e
  | .ok ghost =>
    if ghost.state ≠ GhostState.none ∧ ghost.is_remote = false then .error .ghostExists
    else .ok { ghost with
      ghost_id := ghost_id, initiator := 0, source_token := source_token
      destination_token := destination_token, destination_chain := source_chain
      state := GhostState.burned, amount := amount, burn_ts := now
      burn_proof := burn_proof, is_remote := true }

/-- `Processor::mint_ghost`: requires `Burned`, moves to `Minted`, records
the recipient in the low 32 bytes of `destination_address`. -/
def Processor.mint_ghost (cfg : ProgramConfig) (cfgOwned : Bool) (vkey : Nat)
    (vSigner gOwned : Bool) (slot : Option GhostAccount)
    (ghost_id mint_proof recipient : Nat) (now : Int) : Except PError GhostAccount :=
  match Processor.load_with_validator cfg cfgOwned vkey vSigner gOwned slot ghost_id with
  | .error e => .error e
  | .ok ghost =>
    if ghost.state ≠ GhostState.burned then .error .invalidState
    else .ok { ghost with state := GhostState.minted, mint_ts := now
                          mint_proof := mint_proof, dest_addr_lo := recipient }

/-- `Processor::ack_remote`: requires `Burned`, sets `remote_ack`. -/
def Processor.ack_remote (cfg : ProgramConfig) (cfgOwned : Bool) (vkey : Nat)
    (vSigner gOwned : Bool) (slot : Option GhostAccount) (ghost_id : Nat) :
    Except PError GhostAccount :=
  match Processor.load_with_validator cfg cfgOwned vkey vSigner gOwned slot ghost_id with
  | .error e => .error e
  | .ok ghost =>
    if ghost.state ≠ GhostState.burned then .error .invalidState
    else .ok { ghost with remote_ack := true }

/-- `Processor::destroy_ghost`: requires `Minted` or `remote_ack`, moves to
`Settled`. -/
def Processor.destroy_ghost (cfg : ProgramConfig) (cfgOwned : Bool) (vkey : Nat)
    (vSigner gOwned : Bool) (slot : Option GhostAccount) (ghost_id : Nat) :
    Except PError GhostAccount :=
  match Processor.load_with_validator cfg cfgOwned vkey vSigner gOwned slot ghost_id with
  | .error e => .error e
  | .ok ghost =>
    if ghost.state ≠ GhostState.minted ∧ ghost.remote_ack = false then .error .invalidState
    else .ok { ghost with state := GhostState.settled }

/-- `Processor::initialize_pool`: fresh pool, all counters zero, active. -/
def Processor.initialize_pool (signer owned : Bool) (pool_seed : Nat) :
    Except PError LiquidityPool :=
  if signer = false then .error .missingSigner
  else if owned = false then .error .incorrectProgramId
  else .ok { seed := pool_seed, total_deposited := 0, total_shares := 0
             total_fees := 0, available_liquidity := 0, active := true }

/-- The share computation of `deposit_to_pool`:
`if total_shares == 0 { amount } else { (amount as u128 * total_shares as u128
/ total_deposited as u128) as u64 }`.  `none` is the Rust division-by-zero
panic (`total_shares ≠ 0` but `total_deposited = 0`). -/
def sharesForDeposit (pool : LiquidityPool) (amount : Nat) : Option Nat :=
  if pool.total_shares = 0 then some amount
  else if pool.total_deposited = 0 then none
  else some (wcast (amount * pool.total_shares / pool.total_deposited))

/-- The `LPPosition` default built by `deposit_to_pool` when the position
slot does not deserialize (`unwrap_or`). -/
def loadedPos (posSlot : Option LPPosition) (depositor : Nat) (pool : LiquidityPool) :
    LPPosition :=
  posSlot.getD { owner := depositor, pool := pool.seed, shares := 0, deposited_at := 0 }

/-- `Processor::deposit_to_pool`.  `signer` is `depositor.is_signer`,
`poolOwned` is `pool_account.owner == program_id`; the pool value stands
for the deserialized pool account; the system-program lamport transfer is
an external primitive assumed to succeed. -/
def Processor.deposit_to_pool (signer poolOwned : Bool) (pool : LiquidityPool)
    (posSlot : Option LPPosition) (depositor : Nat) (now : Int) (amount : Nat) :
    Except PError (LiquidityPool × LPPosition) :=
  if signer = false then .error .missingSigner
  else if poolOwned = false then .error .incorrectProgramId
  else if pool.active = false then .error .poolNotActive
  else
    match sharesForDeposit pool amount with
    | none => .error .divideByZero
    | some shares =>
      let pool' := { pool with
        total_deposited := wadd pool.total_deposited amount
        total_shares := wadd pool.total_shares shares
        available_liquidity := wadd pool.available_liquidity amount }
      let position := loadedPos posSlot depositor pool
      .ok (pool', { position with shares := wadd position.shares shares
                                  deposited_at := now })

/-- `Processor::withdraw_from_pool`.  The third component of a successful
result is the number of lamports moved from the pool account to the
withdrawer (the `amount` of the source). -/
def Processor.withdraw_from_pool (signer poolOwned : Bool) (pool : LiquidityPool)
    (posSlot : Option LPPosition) (withdrawer : Nat) (shares : Nat) :
    Except PError (LiquidityPool × LPPosition × Nat) :=
  if signer = false then .error .missingSigner
  else if poolOwned = false then .error .incorrectProgramId
  else
    match posSlot with
    | none => .error .accountDeserialization
    | some position =>
      if position.owner ≠ withdrawer then .error .notPositionOwner
      else if position.shares < shares then .error .insufficientShares
      else if pool.total_shares = 0 then .error .divideByZero
      else
        let amount := wcast (shares * pool.total_deposited / pool.total_shares)
        if pool.available_liquidity < amount then .error .insufficientLiquidity
        else .ok
          ({ pool with total_deposited := wsub pool.total_deposited amount
                       total_shares := wsub pool.total_shares shares
                       available_liquidity := wsub pool.available_liquidity amount },
           { position with shares := wsub position.shares shares },
           amount)

/-- `Processor::execute_payment`.  Checks (in source order): config owner,
validator membership of the relayer, relayer signature, pool owner,
recipient-account match, then available liquidity.  Only
`available_liquidity` is updated; the handler resolves no payment-intent
account at all. -/
def Processor.execute_payment (cfg : ProgramConfig) (cfgOwned : Bool)
    (relayer : Nat) (rSigner poolOwned : Bool) (recipientKey recipient : Nat)
    (_intent_id : Nat) (pool : LiquidityPool) (amount : Nat) :
    Except PError LiquidityPool :=
  if cfgOwned = false then .error .incorrectProgramId
  else if cfg.is_validator relayer = false then .error .unauthorizedValidator
  else if rSigner = false then .error .missingSigner
  else if poolOwned = false then .error .incorrectProgramId
  else if recipientKey ≠ recipient then .error .recipientMismatch
  else if pool.available_liquidity < amount then .error .insufficientLiquidity
  else .ok { pool with available_liquidity := wsub pool.available_liquidity amount }

/-- `Processor::record_payment_intent`: validator-only; creates an intent
with `executed = false` and `recipient` unset. -/
def Processor.record_payment_intent (cfg : ProgramConfig) (cfgOwned : Bool)
    (relayer : Nat) (rSigner intentOwned : Bool)
    (intent_id sender_chain sender_address amount dest_token : Nat) (now : Int) :
    Except PError PaymentIntent :=
  if cfgOwned = false then .error .incorrectProgramId
  else if cfg.is_validator relayer = false then .error .unauthorizedValidator
  else if rSigner = false then .error .missingSigner
  else if intentOwned = false then .error .incorrectProgramId
  else .ok { intent_id := intent_id, sender_chain := sender_chain
             sender_address := sender_address, amount := amount
             dest_token := dest_token, recipient := 0, executed := false
             timestamp := now }

/-! ## State-level model of the pool

A `PoolState` is one pool account together with the LP-position accounts
(one per owner, per the data model) and the recorded payment intents.
`stepPool` dispatches a single well-formed call (all accounts program-owned,
caller signing) to the handler above, exactly as the dispatcher wires
accounts: a deposit/withdrawal touches the pool and the caller's position,
a payment touches only the pool. -/

structure PoolState where
  pool : LiquidityPool
  positions : List LPPosition
  intents : List PaymentIntent
  deriving DecidableEq

/-- Resolve the position account of `owner`. -/
def findPos (ps : List LPPosition) (owner : Nat) : Option LPPosition :=
  ps.find? (fun p => p.owner == owner)

/-- Write back the position account of `owner` (replace the first match,
create the account on first deposit). -/
def setPos (ps : List LPPosition) (owner : Nat) (p : LPPosition) : List LPPosition :=
  match ps with
  | [] => [p]
  | q :: rest => if q.owner == owner then p :: rest else q :: setPos rest owner p

/-- Resolve a recorded payment intent by id. -/
def findIntent (ps : List PaymentIntent) (intent_id : Nat) : Option PaymentIntent :=
  ps.find? (fun p => p.intent_id == intent_id)

/-- One pool instruction of a call sequence. -/
inductive PoolOp where
  | deposit (depositor : Nat) (amount : Nat) (now : Int)
  | withdraw (withdrawer : Nat) (shares : Nat)
  | payment (relayer : Nat) (recipientKey recipient : Nat) (amount : Nat)
  deriving DecidableEq

/-- Apply one pool instruction to the state. -/
def stepPool (cfg : ProgramConfig) (st : PoolState) (op : PoolOp) :
    Except PError PoolState :=
  match op with
  | .deposit d a now =>
    match Processor.deposit_to_pool true true st.pool (findPos st.positions d) d now a with
    | .error e => .error e
    | .ok (pool', pos') =>
      .ok { st with pool := pool', positions := setPos st.positions d pos' }
  | .withdraw w s =>
    match Processor.withdraw_from_pool true true st.pool (findPos st.positions w) w s with
    | .error e => .error e
    | .ok (pool', pos', _) =>
      .ok { st with pool := pool', positions := setPos st.positions w pos' }
  | .payment r rk rc a =>
    match Processor.execute_payment cfg true r true true rk rc 0 st.pool a with
    | .error e => .error e
    | .ok pool' => .ok { st with pool := pool' }

/-- Whether a single call succeeds. -/
def stepSucceeds (cfg : ProgramConfig) (st : PoolState) (op : PoolOp) : Bool :=
  match stepPool cfg st op with
  | .ok _ => true
  | .error _ => false

/-- Run a sequence of calls; a failed call aborts with no write, leaving
the state unchanged. -/
def runPool (cfg : ProgramConfig) (st : PoolState) (ops : List PoolOp) : PoolState :=
  ops.foldl (fun s op => match stepPool cfg s op with | .ok s' => s' | .error _ => s) st

/-- The state of a freshly initialized pool: all counters zero, active. -/
def initialPoolState (seed : Nat) : PoolState :=
  { pool := { seed := seed, total_deposited := 0, total_shares := 0
              total_fees := 0, available_liquidity := 0, active := true }
    positions := [], intents := [] }

/-- States reachable from a freshly initialized pool by successful calls in
which no deposit overflows the `u64` pool counters
(`total_deposited + amount < 2^64`). -/
inductive ReachableNF (cfg : ProgramConfig) : PoolState → Prop where
  | init (seed : Nat) : ReachableNF cfg (initialPoolState seed)
  | deposit (st st' : PoolState) (d a : Nat) (t : Int)
      (hr : ReachableNF cfg st)
      (hnov : st.pool.total_deposited + a < U64M)
      (h : stepPool cfg st (PoolOp.deposit d a t) = Except.ok st') :
      ReachableNF cfg st'
  | withdraw (st st' : PoolState) (w s : Nat)
      (hr : ReachableNF cfg st)
      (h : stepPool cfg st (PoolOp.withdraw w s) = Except.ok st') :
      ReachableNF cfg st'
  | payment (st st' : PoolState) (r rk rc a : Nat)
      (hr : ReachableNF cfg st)
      (h : stepPool cfg st (PoolOp.payment r rk rc a) = Except.ok st') :
      ReachableNF cfg st'

/-- Total shares held across all position accounts. -/
def posShareSum (ps : List LPPosition) : Nat :=
  (ps.map LPPosition.shares).sum

/-- The inductive invariant of reachable (overflow-free) pool states:
shares track deposits one-to-one (`total_fees` is never credited),
positions account for exactly `total_shares`, the counters fit in `u64`,
and spendable liquidity never exceeds the deposit base. -/
def PoolInv (st : PoolState) : Prop :=
  st.pool.total_shares = st.pool.total_deposited ∧
  posShareSum st.positions = st.pool.total_shares ∧
  st.pool.total_deposited < U64M ∧
  st.pool.available_liquidity ≤ st.pool.total_deposited

/-! ## State-level model of the ghost ledger

One record slot, driven by validator-signed (resp. payer-signed) calls. -/

/-- One ghost instruction of a call sequence, together with its caller. -/
inductive GhostOp where
  | create (payer : Nat) (ghost_id amount destination_chain addrLo addrHi
      source_token destination_token : Nat) (now : Int)
  | lock (vkey ghost_id : Nat) (now : Int)
  | burn (vkey ghost_id burn_proof : Nat) (now : Int)
  | mirror (vkey ghost_id source_chain amount burn_proof source_token
      destination_token : Nat) (now : Int)
  | mint (vkey ghost_id mint_proof recipient : Nat) (now : Int)
  | ack (vkey ghost_id : Nat)
  | destroy (vkey ghost_id : Nat)
  deriving DecidableEq

/-- Apply one ghost instruction to the record slot (all accounts
program-owned, caller signing). -/
def stepGhost (cfg : ProgramConfig) (slot : Option GhostAccount) (op : GhostOp) :
    Except PError GhostAccount :=
  match op with
  | .create payer gid a ch lo hi stok dtok now =>
    Processor.create_ghost true true true payer gid a ch lo hi stok dtok now
  | .lock v gid now => Processor.lock_ghost cfg true v true true slot gid now
  | .burn v gid bp now => Processor.burn_ghost cfg true v true true slot gid bp now
  | .mirror v gid sc a bp stok dtok now =>
    Processor.mirror_ghost cfg true v true true slot gid sc a bp stok dtok now
  | .mint v gid mp r now => Processor.mint_ghost cfg true v true true slot gid mp r now
  | .ack v gid => Processor.ack_remote cfg true v true true slot gid
  | .destroy v gid => Processor.destroy_ghost cfg true v true true slot gid

/-- Whether a single ghost call succeeds. -/
def ghostStepSucceeds (cfg : ProgramConfig) (slot : Option GhostAccount)
    (op : GhostOp) : Bool :=
  match stepGhost cfg slot op with
  | .ok _ => true
  | .error _ => false

/-- Run a sequence of ghost calls on one record slot; a failed call leaves
the slot unchanged. -/
def runGhost (cfg : ProgramConfig) (slot : Option GhostAccount)
    (ops : List GhostOp) : Option GhostAccount :=
  ops.foldl (fun s op => match stepGhost cfg s op with | .ok g => some g | .error _ => s) slot

/-! ## Spec-side formulas (for comparison with the computed values) -/

/-- The shares the spec says a deposit issues: `amount` on bootstrap, else
`floor(amount * total_shares_before / total_deposited_before)` as exact
integer arithmetic (no narrowing). -/
def specDepositShares (pool : LiquidityPool) (amount : Nat) : Nat :=
  if pool.total_shares = 0 then amount
  else amount * pool.total_shares / pool.total_deposited

/-- The payout the spec says a withdrawal makes:
`floor(shares * total_deposited_before / total_shares_before)` as exact
integer arithmetic (no narrowing). -/
def specWithdrawAmount (pool : LiquidityPool) (shares : Nat) : Nat :=
  shares * pool.total_deposited / pool.total_shares

/-! ## Concrete inputs used by counterexamples and witnesses -/

/-- Decidable equality on `Except`, so that concrete handler results can be
checked by `decide`. -/
instance instDecEqExceptPE {ε α : Type} [DecidableEq ε] [DecidableEq α] :
    DecidableEq (Except ε α) := fun a b =>
  match a, b with
  | .error e, .error f =>
    match decEq e f with
    | isTrue h => isTrue (by rw [h])
    | isFalse h => isFalse (fun hc => h (by injection hc))
  | .error _, .ok _ => isFalse (fun hc => by cases hc)
  | .ok _, .error _ => isFalse (fun hc => by cases hc)
  | .ok x, .ok y =>
    match decEq x y with
    | isTrue h => isTrue (by rw [h])
    | isFalse h => isFalse (fun hc => h (by injection hc))

/-- A registry with validator `2` (admin `1`). -/
def cfg0 : ProgramConfig :=
  { admin := 1, validator_threshold := 1, max_validators := 3, validators := [2] }

/-- `u64::MAX`. -/
def UMAX : Nat := U64M - 1

/-- C3 witness input: a balanced active pool. -/
def c3pool : LiquidityPool :=
  { seed := 0, total_deposited := 4, total_shares := 4, total_fees := 0
    available_liquidity := 4, active := true }

/-- C3 witness result pool. -/
def c3poolAfter : LiquidityPool :=
  { seed := 0, total_deposited := 6, total_shares := 6, total_fees := 0
    available_liquidity := 6, active := true }

/-- C3 witness result position. -/
def c3posAfter : LPPosition :=
  { owner := 7, pool := 0, shares := 2, deposited_at := 3 }

/-- C3 counterexample input A: an active pool whose deposit counter is at
`u64::MAX` (reachable by one bootstrap deposit of `u64::MAX` followed by a
payout). -/
def cePoolA : LiquidityPool :=
  { seed := 0, total_deposited := UMAX, total_shares := UMAX, total_fees := 0
    available_liquidity := 0, active := true }

/-- C3 counterexample A: pool after depositing 1 (the counter wrapped). -/
def cePoolA' : LiquidityPool :=
  { seed := 0, total_deposited := 0, total_shares := 0, total_fees := 0
    available_liquidity := 1, active := true }

/-- C3 counterexample A: resulting position. -/
def cePosA' : LPPosition := { owner := 5, pool := 0, shares := 1, deposited_at := 0 }

/-- C3 counterexample input B: an active pool with a large share/deposit
ratio, on which the widened share computation exceeds `u64::MAX`. -/
def cePoolB : LiquidityPool :=
  { seed := 0, total_deposited := 1, total_shares := UMAX, total_fees := 0
    available_liquidity := 1, active := true }

/-- C3 counterexample B: pool after depositing 2 (shares truncated). -/
def cePoolB' : LiquidityPool :=
  { seed := 0, total_deposited := 3, total_shares := UMAX - 2, total_fees := 0
    available_liquidity := 3, active := true }

/-- C3 counterexample B: resulting position. -/
def cePosB' : LPPosition := { owner := 5, pool := 0, shares := UMAX - 1, deposited_at := 0 }

/-- C4 counterexample input: a pool whose widened payout computation
exceeds `u64::MAX` when narrowed. -/
def c4pool : LiquidityPool :=
  { seed := 0, total_deposited := UMAX, total_shares := 1, total_fees := 0
    available_liquidity := UMAX, active := true }

/-- C4 counterexample: the withdrawer's position. -/
def c4pos : LPPosition := { owner := 7, pool := 0, shares := 2, deposited_at := 0 }

/-- C4 counterexample: pool after the withdrawal. -/
def c4pool' : LiquidityPool :=
  { seed := 0, total_deposited := 1, total_shares := UMAX, total_fees := 0
    available_liquidity := 1, active := true }

/-- C4 counterexample: position after the withdrawal. -/
def c4pos' : LPPosition := { owner := 7, pool := 0, shares := 0, deposited_at := 0 }

/-- C4 witness input: a balanced pool. -/
def c4wpool : LiquidityPool :=
  { seed := 0, total_deposited := 100, total_shares := 100, total_fees := 0
    available_liquidity := 100, active := true }

/-- C4 witness input: a 40-share position. -/
def c4wpos : LPPosition := { owner := 7, pool := 0, shares := 40, deposited_at := 0 }

/-- C9 witness input state: a funded pool with one recorded intent. -/
def c9st : PoolState :=
  { pool := { seed := 0, total_deposited := 100, total_shares := 100, total_fees := 0
              available_liquidity := 100, active := true }
    positions := [{ owner := 5, pool := 0, shares := 100, deposited_at := 0 }]
    intents := [{ intent_id := 3, sender_chain := 1, sender_address := 0, amount := 30
                  dest_token := 4, recipient := 0, executed := false, timestamp := 0 }] }

/-- C2 failing sequence: an inbound transfer driven to `Settled`. -/
def c2ops : List GhostOp :=
  [GhostOp.mirror 2 77 5 1000 11 21 22 0, GhostOp.mint 2 77 12 33 0, GhostOp.destroy 2 77]

/-- C2 failing sequence: the subsequent `CreateGhost` on the settled slot. -/
def c2create : GhostOp := GhostOp.create 6 77 500 9 0 0 21 22 0

/-- C5 witness: a settled, unacknowledged record with ghost id 1. -/
def c5g : GhostAccount :=
  { ghost_id := 1, initiator := 4, source_token := 21, destination_token := 22
    destination_chain := 9, dest_addr_lo := 0, dest_addr_hi := 0
    state := GhostState.settled, amount := 500, lock_ts := 0, burn_ts := 0
    mint_ts := 0, burn_proof := 0, mint_proof := 0
    is_remote := false, remote_ack := false }

/-- C8 witness: a live outbound (non-remote) record with ghost id 7. -/
def c8g : GhostAccount :=
  { ghost_id := 7, initiator := 4, source_token := 21, destination_token := 22
    destination_chain := 9, dest_addr_lo := 0, dest_addr_hi := 0
    state := GhostState.created, amount := 500, lock_ts := 0, burn_ts := 0
    mint_ts := 0, burn_proof := 0, mint_proof := 0
    is_remote := false, remote_ack := false }

/-- C7: the registry produced by the first `Initialize` call. -/
def c7cfg1 : ProgramConfig :=
  { admin := 7, validator_threshold := 1, max_validators := 3, validators := [] }

/-- C7: the registry produced by the second, overwriting `Initialize`. -/
def c7cfg2 : ProgramConfig :=
  { admin := 9, validator_threshold := 1, max_validators := 3, validators := [] }

/-! ## Arithmetic and bookkeeping lemmas -/

theorem wadd_eq {a b : Nat} (h : a + b < U64M) : wadd a b = a + b :=
  Nat.mod_eq_of_lt h

theorem wsub_eq {a b : Nat} (hb : b ≤ a) (ha : a < U64M) : wsub a b = a - b := by
  unfold wsub
  have h1 : a + U64M - b = U64M + (a - b) := by omega
  rw [h1, Nat.add_mod_left]
  exact Nat.mod_eq_of_lt (by omega)

theorem wcast_eq {a : Nat} (h : a < U64M) : wcast a = a :=
  Nat.mod_eq_of_lt h

theorem sharesForDeposit_eq {pool : LiquidityPool} {a : Nat}
    (hts : pool.total_shares = pool.total_deposited) (ha : a < U64M) :
    sharesForDeposit pool a = some a := by
  unfold sharesForDeposit
  rcases Nat.eq_zero_or_pos pool.total_shares with h0 | h0
  · rw [if_pos h0]
  · have hne : ¬ pool.total_shares = 0 := by omega
    have htd : ¬ pool.total_deposited = 0 := by omega
    rw [if_neg hne, if_neg htd, hts, Nat.mul_div_cancel _ (by omega), wcast_eq ha]

theorem posShareSum_cons (p : LPPosition) (ps : List LPPosition) :
    posShareSum (p :: ps) = p.shares + posShareSum ps := by
  simp [posShareSum]

theorem findPos_owner {ps : List LPPosition} {o : Nat} {p : LPPosition}
    (h : findPos ps o = some p) : p.owner = o := by
  have := List.find?_some h
  simpa using this

theorem mem_of_findPos {ps : List LPPosition} {o : Nat} {p : LPPosition}
    (h : findPos ps o = some p) : p ∈ ps :=
  List.mem_of_find?_eq_some h

theorem shares_le_posShareSum {ps : List LPPosition} {p : LPPosition} (h : p ∈ ps) :
    p.shares ≤ posShareSum ps := by
  induction ps with
  | nil => cases h
  | cons q rest ih =>
    rw [posShareSum_cons]
    rcases List.mem_cons.mp h with h | h
    · subst h; omega
    · have := ih h; omega

theorem posShareSum_setPos_none (ps : List LPPosition) (o : Nat) (p' : LPPosition)
    (h : findPos ps o = none) :
    posShareSum (setPos ps o p') = posShareSum ps + p'.shares := by
  induction ps with
  | nil => simp [setPos, posShareSum]
  | cons q rest ih =>
    by_cases hq : (q.owner == o) = true
    · have : findPos (q :: rest) o = some q := List.find?_cons_of_pos _ hq
      rw [this] at h; cases h
    · have hrest : findPos rest o = none := by
        have := List.find?_cons_of_neg (p := fun p => p.owner == o) rest hq
        unfold findPos at h ⊢; rw [this] at h; exact h
      unfold setPos
      rw [if_neg hq, posShareSum_cons, posShareSum_cons, ih hrest]
      omega

theorem posShareSum_setPos_some (ps : List LPPosition) (o : Nat) (p p' : LPPosition)
    (h : findPos ps o = some p) :
    posShareSum (setPos ps o p') + p.shares = posShareSum ps + p'.shares := by
  induction ps with
  | nil => simp [findPos] at h
  | cons q rest ih =>
    by_cases hq : (q.owner == o) = true
    · have heq : findPos (q :: rest) o = some q := List.find?_cons_of_pos _ hq
      rw [heq] at h
      injection h with h; subst h
      unfold setPos
      rw [if_pos hq, posShareSum_cons, posShareSum_cons]
      omega
    · have hrest : findPos rest o = some p := by
        have := List.find?_cons_of_neg (p := fun p => p.owner == o) rest hq
        unfold findPos at h ⊢; rw [this] at h; exact h
      unfold setPos
      rw [if_neg hq, posShareSum_cons, posShareSum_cons]
      have := ih hrest
      omega

/-! ## Success characterizations of the pool steps -/

theorem deposit_to_pool_unfold (pool : LiquidityPool) (posSlot : Option LPPosition)
    (d : Nat) (t : Int) (a : Nat) :
    Processor.deposit_to_pool true true pool posSlot d t a =
      (if pool.active = false then .error .poolNotActive
       else
         match sharesForDeposit pool a with
         | none => .error .divideByZero
         | some shares =>
           .ok ({ pool with
                  total_deposited := wadd pool.total_deposited a
                  total_shares := wadd pool.total_shares shares
                  available_liquidity := wadd pool.available_liquidity a },
                { loadedPos posSlot d pool with
                  shares := wadd (loadedPos posSlot d pool).shares shares
                  deposited_at := t })) := rfl

theorem withdraw_from_pool_unfold (pool : LiquidityPool) (position : LPPosition)
    (w s : Nat) :
    Processor.withdraw_from_pool true true pool (some position) w s =
      (if position.owner ≠ w then .error .notPositionOwner
       else if position.shares < s then .error .insufficientShares
       else if pool.total_shares = 0 then .error .divideByZero
       else if pool.available_liquidity < wcast (s * pool.total_deposited / pool.total_shares)
         then .error .insufficientLiquidity
       else .ok
         ({ pool with
            total_deposited :=
              wsub pool.total_deposited (wcast (s * pool.total_deposited / pool.total_shares))
            total_shares := wsub pool.total_shares s
            available_liquidity :=
              wsub pool.available_liquidity (wcast (s * pool.total_deposited / pool.total_shares)) },
          { position with shares := wsub position.shares s },
          wcast (s * pool.total_deposited / pool.total_shares))) := rfl

theorem execute_payment_unfold (cfg : ProgramConfig) (r rk rc iid : Nat)
    (pool : LiquidityPool) (a : Nat) :
    Processor.execute_payment cfg true r true true rk rc iid pool a =
      (if cfg.is_validator r = false then .error .unauthorizedValidator
       else if rk ≠ rc then .error .recipientMismatch
       else if pool.available_liquidity < a then .error .insufficientLiquidity
       else .ok { pool with available_liquidity := wsub pool.available_liquidity a }) := rfl

theorem deposit_to_pool_ok {pool : LiquidityPool} {posSlot : Option LPPosition}
    {d : Nat} {t : Int} {a : Nat} {pool' : LiquidityPool} {pos' : LPPosition}
    (hok : Processor.deposit_to_pool true true pool posSlot d t a = Except.ok (pool', pos')) :
    ∃ s0, sharesForDeposit pool a = some s0 ∧ pool.active = true ∧
      pool' = { pool with total_deposited := wadd pool.total_deposited a
                          total_shares := wadd pool.total_shares s0
                          available_liquidity := wadd pool.available_liquidity a } ∧
      pos' = { loadedPos posSlot d pool with
               shares := wadd (loadedPos posSlot d pool).shares s0
               deposited_at := t } := by
  rw [deposit_to_pool_unfold] at hok
  by_cases hact : pool.active = false
  · rw [if_pos hact] at hok
    cases hok
  · rw [if_neg hact] at hok
    cases hshares : sharesForDeposit pool a with
    | none => rw [hshares] at hok; cases hok
    | some s0 =>
      rw [hshares] at hok
      refine ⟨s0, rfl, by simpa using hact, ?_, ?_⟩
      · injection hok with hok
        exact (congrArg Prod.fst hok).symm
      · injection hok with hok
        exact (congrArg Prod.snd hok).symm

theorem withdraw_from_pool_ok {pool : LiquidityPool} {posSlot : Option LPPosition}
    {w s : Nat} {pool' : LiquidityPool} {pos' : LPPosition} {paid : Nat}
    (hok : Processor.withdraw_from_pool true true pool posSlot w s =
      Except.ok (pool', pos', paid)) :
    ∃ position, posSlot = some position ∧ position.owner = w ∧
      s ≤ position.shares ∧ pool.total_shares ≠ 0 ∧
      paid = wcast (s * pool.total_deposited / pool.total_shares) ∧
      paid ≤ pool.available_liquidity ∧
      pool' = { pool with total_deposited := wsub pool.total_deposited paid
                          total_shares := wsub pool.total_shares s
                          available_liquidity := wsub pool.available_liquidity paid } ∧
      pos' = { position with shares := wsub position.shares s } := by
  cases posSlot with
  | none =>
    rw [show Processor.withdraw_from_pool true true pool none w s =
      Except.error PError.accountDeserialization from rfl] at hok
    cases hok
  | some position =>
    rw [withdraw_from_pool_unfold] at hok
    by_cases hown : position.owner ≠ w
    · rw [if_pos hown] at hok; cases hok
    · rw [if_neg hown] at hok
      by_cases hsh : position.shares < s
      · rw [if_pos hsh] at hok; cases hok
      · rw [if_neg hsh] at hok
        by_cases hts : pool.total_shares = 0
        · rw [if_pos hts] at hok; cases hok
        · rw [if_neg hts] at hok
          by_cases hal : pool.available_liquidity < wcast (s * pool.total_deposited / pool.total_shares)
          · rw [if_pos hal] at hok; cases hok
          · rw [if_neg hal] at hok
            injection hok with hok
            have hpaid : wcast (s * pool.total_deposited / pool.total_shares) = paid :=
              congrArg (fun x => x.2.2) hok
            subst hpaid
            refine ⟨position, rfl, by omega, by omega, hts, rfl, by omega, ?_, ?_⟩
            · exact (congrArg Prod.fst hok).symm
            · exact (congrArg (fun x => x.2.1) hok).symm

theorem execute_payment_ok {cfg : ProgramConfig} {r : Nat} {rk rc : Nat}
    {iid : Nat} {pool pool' : LiquidityPool} {a : Nat}
    (hok : Processor.execute_payment cfg true r true true rk rc iid pool a =
      Except.ok pool') :
    cfg.is_validator r = true ∧ rk = rc ∧ a ≤ pool.available_liquidity ∧
    pool' = { pool with available_liquidity := wsub pool.available_liquidity a } := by
  rw [execute_payment_unfold] at hok
  by_cases hv : cfg.is_validator r = false
  · rw [if_pos hv] at hok; cases hok
  · rw [if_neg hv] at hok
    by_cases hrc : rk ≠ rc
    · rw [if_pos hrc] at hok; cases hok
    · rw [if_neg hrc] at hok
      by_cases hal : pool.available_liquidity < a
      · rw [if_pos hal] at hok; cases hok
      · rw [if_neg hal] at hok
        injection hok with hok
        exact ⟨by simpa using hv, by omega, by omega, hok.symm⟩

theorem stepPool_deposit_ok {cfg : ProgramConfig} {st st' : PoolState} {d a : Nat} {t : Int}
    (h : stepPool cfg st (PoolOp.deposit d a t) = Except.ok st') :
    ∃ s0, sharesForDeposit st.pool a = some s0 ∧ st.pool.active = true ∧
      st'.pool = { st.pool with
                   total_deposited := wadd st.pool.total_deposited a
                   total_shares := wadd st.pool.total_shares s0
                   available_liquidity := wadd st.pool.available_liquidity a } ∧
      st'.positions = setPos st.positions d
        { loadedPos (findPos st.positions d) d st.pool with
          shares := wadd (loadedPos (findPos st.positions d) d st.pool).shares s0
          deposited_at := t } ∧
      st'.intents = st.intents := by
  rw [show stepPool cfg st (PoolOp.deposit d a t) =
    (match Processor.deposit_to_pool true true st.pool (findPos st.positions d) d t a with
     | .error e => .error e
     | .ok (pool', pos') =>
       .ok { st with pool := pool', positions := setPos st.positions d pos' }) from rfl] at h
  cases hdep : Processor.deposit_to_pool true true st.pool (findPos st.positions d) d t a with
  | error e => rw [hdep] at h; cases h
  | ok pr =>
    obtain ⟨pool', pos'⟩ := pr
    rw [hdep] at h
    injection h with h
    obtain ⟨s0, hs, hact, hpool, hpos⟩ := deposit_to_pool_ok hdep
    exact ⟨s0, hs, hact, by rw [← h, hpool], by rw [← h, hpos], by rw [← h]⟩

theorem stepPool_withdraw_ok {cfg : ProgramConfig} {st st' : PoolState} {w s : Nat}
    (h : stepPool cfg st (PoolOp.withdraw w s) = Except.ok st') :
    ∃ position paid, findPos st.positions w = some position ∧ position.owner = w ∧
      s ≤ position.shares ∧ st.pool.total_shares ≠ 0 ∧
      paid = wcast (s * st.pool.total_deposited / st.pool.total_shares) ∧
      paid ≤ st.pool.available_liquidity ∧
      st'.pool = { st.pool with
                   total_deposited := wsub st.pool.total_deposited paid
                   total_shares := wsub st.pool.total_shares s
                   available_liquidity := wsub st.pool.available_liquidity paid } ∧
      st'.positions = setPos st.positions w { position with shares := wsub position.shares s } ∧
      st'.intents = st.intents := by
  rw [show stepPool cfg st (PoolOp.withdraw w s) =
    (match Processor.withdraw_from_pool true true st.pool (findPos st.positions w) w s with
     | .error e => .error e
     | .ok (pool', pos', _) =>
       .ok { st with pool := pool', positions := setPos st.positions w pos' }) from rfl] at h
  cases hwd : Processor.withdraw_from_pool true true st.pool (findPos st.positions w) w s with
  | error e => rw [hwd] at h; cases h
  | ok pr =>
    obtain ⟨pool', pos', paid⟩ := pr
    rw [hwd] at h
    injection h with h
    obtain ⟨position, hslot, hown, hsle, htsne, hpaid, hple, hpool, hpos⟩ :=
      withdraw_from_pool_ok hwd
    exact ⟨position, paid, hslot, hown, hsle, htsne, hpaid, hple,
      by rw [← h, hpool], by rw [← h, hpos], by rw [← h]⟩

theorem stepPool_payment_ok {cfg : ProgramConfig} {st st' : PoolState} {r rk rc a : Nat}
    (h : stepPool cfg st (PoolOp.payment r rk rc a) = Except.ok st') :
    cfg.is_validator r = true ∧ rk = rc ∧ a ≤ st.pool.available_liquidity ∧
    st'.pool = { st.pool with available_liquidity := wsub st.pool.available_liquidity a } ∧
    st'.positions = st.positions ∧ st'.intents = st.intents := by
  rw [show stepPool cfg st (PoolOp.payment r rk rc a) =
    (match Processor.execute_payment cfg true r true true rk rc 0 st.pool a with
     | .error e => .error e
     | .ok pool' => .ok { st with pool := pool' }) from rfl] at h
  cases hp : Processor.execute_payment cfg true r true true rk rc 0 st.pool a with
  | error e => rw [hp] at h; cases h
  | ok pool' =>
    rw [hp] at h
    injection h with h
    obtain ⟨hv, hrc, hle, hpool⟩ := execute_payment_ok hp
    exact ⟨hv, hrc, hle, by rw [← h, hpool], by rw [← h], by rw [← h]⟩

/-! ## The pool invariant is inductive -/

theorem poolInv_init (seed : Nat) : PoolInv (initialPoolState seed) := by
  refine ⟨rfl, rfl, ?_, Nat.le_refl 0⟩
  norm_num [initialPoolState, U64M]

theorem poolInv_deposit {cfg : ProgramConfig} {st st' : PoolState} {d a : Nat} {t : Int}
    (hinv : PoolInv st) (hnov : st.pool.total_deposited + a < U64M)
    (h : stepPool cfg st (PoolOp.deposit d a t) = Except.ok st') : PoolInv st' := by
  obtain ⟨hts, hsum, hlt, hle⟩ := hinv
  obtain ⟨s0, hs, _, hpool, hpos, _⟩ := stepPool_deposit_ok h
  have ha : a < U64M := by omega
  rw [sharesForDeposit_eq hts ha] at hs
  injection hs with hs
  subst hs
  have htd' : st'.pool.total_deposited = st.pool.total_deposited + a := by
    rw [hpool]; exact wadd_eq hnov
  have hts' : st'.pool.total_shares = st.pool.total_shares + a := by
    rw [hpool]
    show wadd st.pool.total_shares a = st.pool.total_shares + a
    rw [hts]; exact wadd_eq hnov
  have hal' : st'.pool.available_liquidity = st.pool.available_liquidity + a := by
    rw [hpool]; exact wadd_eq (by omega)
  have hsum' : posShareSum st'.positions = posShareSum st.positions + a := by
    rw [hpos]
    cases hfind : findPos st.positions d with
    | none =>
      rw [posShareSum_setPos_none st.positions d _ hfind]
      show posShareSum st.positions + wadd 0 a = posShareSum st.positions + a
      rw [wadd_eq (by omega)]
      omega
    | some p =>
      have hmem := mem_of_findPos hfind
      have hple : p.shares ≤ posShareSum st.positions := shares_le_posShareSum hmem
      have h2 := posShareSum_setPos_some st.positions d p
        { loadedPos (some p) d st.pool with
          shares := wadd (loadedPos (some p) d st.pool).shares a
          deposited_at := t } hfind
      have h3 : ({ loadedPos (some p) d st.pool with
          shares := wadd (loadedPos (some p) d st.pool).shares a
          deposited_at := t } : LPPosition).shares = p.shares + a := by
        show wadd p.shares a = p.shares + a
        exact wadd_eq (by omega)
      rw [h3] at h2
      omega
  exact ⟨by omega, by omega, by omega, by omega⟩

theorem poolInv_withdraw {cfg : ProgramConfig} {st st' : PoolState} {w s : Nat}
    (hinv : PoolInv st)
    (h : stepPool cfg st (PoolOp.withdraw w s) = Except.ok st') : PoolInv st' := by
  obtain ⟨hts, hsum, hlt, hle⟩ := hinv
  obtain ⟨position, paid, hfind, _, hsle, htsne, hpaid, hple, hpool, hpos, _⟩ :=
    stepPool_withdraw_ok h
  have hmem := mem_of_findPos hfind
  have hpsum : position.shares ≤ posShareSum st.positions := shares_le_posShareSum hmem
  have hstd : s ≤ st.pool.total_deposited := by omega
  have hpaid_s : paid = s := by
    rw [hpaid, hts, Nat.mul_div_cancel _ (by omega), wcast_eq (by omega)]
  subst hpaid_s
  have htd' : st'.pool.total_deposited = st.pool.total_deposited - paid := by
    rw [hpool]; exact wsub_eq (by omega) (by omega)
  have hts' : st'.pool.total_shares = st.pool.total_shares - paid := by
    rw [hpool]
    show wsub st.pool.total_shares paid = st.pool.total_shares - paid
    exact wsub_eq (by omega) (by omega)
  have hal' : st'.pool.available_liquidity = st.pool.available_liquidity - paid := by
    rw [hpool]; exact wsub_eq (by omega) (by omega)
  have hsum' : posShareSum st'.positions = posShareSum st.positions - paid := by
    rw [hpos]
    have h2 := posShareSum_setPos_some st.positions w position
      { position with shares := wsub position.shares paid } hfind
    have h3 : ({ position with shares := wsub position.shares paid } : LPPosition).shares
        = position.shares - paid := by
      show wsub position.shares paid = position.shares - paid
      exact wsub_eq (by omega) (by omega)
    rw [h3] at h2
    omega
  exact ⟨by omega, by omega, by omega, by omega⟩

theorem poolInv_payment {cfg : ProgramConfig} {st st' : PoolState} {r rk rc a : Nat}
    (hinv : PoolInv st)
    (h : stepPool cfg st (PoolOp.payment r rk rc a) = Except.ok st') : PoolInv st' := by
  obtain ⟨hts, hsum, hlt, hle⟩ := hinv
  obtain ⟨_, _, hale, hpool, hpos, _⟩ := stepPool_payment_ok h
  have hal' : st'.pool.available_liquidity = st.pool.available_liquidity - a := by
    rw [hpool]; exact wsub_eq (by omega) (by omega)
  have htd' : st'.pool.total_deposited = st.pool.total_deposited := by rw [hpool]
  have hts' : st'.pool.total_shares = st.pool.total_shares := by rw [hpool]
  have hsum' : posShareSum st'.positions = posShareSum st.positions := by rw [hpos]
  exact ⟨by omega, by omega, by omega, by omega⟩

/-- Every reachable (overflow-free) pool state satisfies the invariant. -/
theorem reachable_inv {cfg : ProgramConfig} {st : PoolState}
    (h : ReachableNF cfg st) : PoolInv st := by
  induction h with
  | init seed => exact poolInv_init seed
  | deposit st st' d a t hr hnov h ih => exact poolInv_deposit ih hnov h
  | withdraw st st' w s hr h ih => exact poolInv_withdraw ih h
  | payment st st' r rk rc a hr h ih => exact poolInv_payment ih h

/-! ## The validator-gated load succeeds on an addressed slot -/

theorem load_with_validator_ok {cfg : ProgramConfig} {v : Nat}
    {slot : Option GhostAccount} {gid : Nat}
    (hv : cfg.is_validator v = true)
    (hid : (slot.getD defaultGhost).state = GhostState.none ∨
           (slot.getD defaultGhost).ghost_id = gid) :
    Processor.load_with_validator cfg true v true true slot gid =
      Except.ok (slot.getD defaultGhost) := by
  unfold Processor.load_with_validator
  rw [hv]
  rw [if_neg (by simp), if_neg (by simp), if_neg (by simp), if_neg (by simp)]
  rw [if_neg (show ¬((slot.getD defaultGhost).ghost_id ≠ gid ∧
      (slot.getD defaultGhost).state ≠ GhostState.none) by
    rcases hid with h | h
    · exact fun hc => hc.2 h
    · exact fun hc => hc.1 h)]

/-! ## Claims -/

/-- C1 (amended): for every sequence of `deposit_to_pool`,
`withdraw_from_pool` and `execute_payment` calls starting from a freshly
initialized pool, provided every successful deposit keeps the deposit
counter inside `u64` (`total_deposited + amount < 2^64`), the pool
satisfies `available_liquidity ≤ total_deposited` after each successful
call.  (Without the proviso the unchecked `+=` wraps and the invariant
fails — see the counterexample.) -/
theorem C1_available_le_deposited (cfg : ProgramConfig) (st : PoolState)
    (h : ReachableNF cfg st) :
    st.pool.available_liquidity ≤ st.pool.total_deposited :=
  (reachable_inv h).2.2.2

/-- C1 witness: the invariant at a concretely reached state. -/
theorem C1_witness :
    (runPool cfg0 (initialPoolState 0) [PoolOp.deposit 5 100 0]).pool.available_liquidity ≤
      (runPool cfg0 (initialPoolState 0) [PoolOp.deposit 5 100 0]).pool.total_deposited :=
  C1_available_le_deposited cfg0 _
    (ReachableNF.deposit (initialPoolState 0) _ 5 100 0 (ReachableNF.init 0)
      (by decide) rfl)

/-- C1 counterexample: from a fresh pool, the three successful calls
`DepositToPool(u64::MAX)`, `ExecutePayment(u64::MAX)`,
`DepositToPool(u64::MAX)` leave
`available_liquidity = u64::MAX > total_deposited = u64::MAX - 1`:
the last deposit wraps `total_deposited` modulo `2^64`, so the claimed
invariant fails after a successful call. -/
theorem C1_counterexample :
    stepSucceeds cfg0 (initialPoolState 0) (PoolOp.deposit 5 UMAX 0) = true ∧
    stepSucceeds cfg0 (runPool cfg0 (initialPoolState 0) [PoolOp.deposit 5 UMAX 0])
      (PoolOp.payment 2 9 9 UMAX) = true ∧
    stepSucceeds cfg0 (runPool cfg0 (initialPoolState 0)
      [PoolOp.deposit 5 UMAX 0, PoolOp.payment 2 9 9 UMAX]) (PoolOp.deposit 5 UMAX 0) = true ∧
    ¬ ((runPool cfg0 (initialPoolState 0)
        [PoolOp.deposit 5 UMAX 0, PoolOp.payment 2 9 9 UMAX,
         PoolOp.deposit 5 UMAX 0]).pool.available_liquidity ≤
       (runPool cfg0 (initialPoolState 0)
        [PoolOp.deposit 5 UMAX 0, PoolOp.payment 2 9 9 UMAX,
         PoolOp.deposit 5 UMAX 0]).pool.total_deposited) := by
  decide

/-- C6: the value/share arithmetic is not overflow-checked: from a fresh
pool, `DepositToPool(u64::MAX)` followed by `DepositToPool(1)` both
succeed, and the second call silently wraps `total_deposited` (and
`total_shares`, `available_liquidity`) from `u64::MAX` to `0`
modulo `2^64`. -/
theorem C6_unchecked_arithmetic_wraps :
    (runPool cfg0 (initialPoolState 0) [PoolOp.deposit 5 UMAX 0]).pool.total_deposited
      = UMAX ∧
    stepSucceeds cfg0 (runPool cfg0 (initialPoolState 0) [PoolOp.deposit 5 UMAX 0])
      (PoolOp.deposit 5 1 0) = true ∧
    (runPool cfg0 (initialPoolState 0)
      [PoolOp.deposit 5 UMAX 0, PoolOp.deposit 5 1 0]).pool.total_deposited = 0 := by
  decide

/-- C9: a successful `execute_payment` of `amount` decreases
`available_liquidity` by exactly `amount` and leaves `total_deposited`,
`total_shares`, `total_fees`, `seed`, `active`, all LP positions and all
recorded payment intents (hence the matched intent's `executed` flag)
unchanged. -/
theorem C9_payment_frame (cfg : ProgramConfig) (st st' : PoolState) (r rk rc a : Nat)
    (hwf : st.pool.available_liquidity < U64M)
    (h : stepPool cfg st (PoolOp.payment r rk rc a) = Except.ok st') :
    a ≤ st.pool.available_liquidity ∧
    st'.pool.available_liquidity = st.pool.available_liquidity - a ∧
    st'.pool.total_deposited = st.pool.total_deposited ∧
    st'.pool.total_shares = st.pool.total_shares ∧
    st'.pool.total_fees = st.pool.total_fees ∧
    st'.pool.seed = st.pool.seed ∧
    st'.pool.active = st.pool.active ∧
    st'.positions = st.positions ∧
    st'.intents = st.intents ∧
    (∀ iid, findIntent st'.intents iid = findIntent st.intents iid) := by
  obtain ⟨hv, hrc, hle, hpool, hpos, hint⟩ := stepPool_payment_ok h
  refine ⟨hle, ?_, by rw [hpool], by rw [hpool], by rw [hpool], by rw [hpool],
    by rw [hpool], hpos, hint, fun iid => by rw [hint]⟩
  rw [hpool]
  exact wsub_eq hle hwf

/-- C9 witness: a concrete successful payment of 30 out of 100. -/
theorem C9_witness :
    (runPool cfg0 c9st [PoolOp.payment 2 9 9 30]).pool.available_liquidity =
      c9st.pool.available_liquidity - 30 :=
  (C9_payment_frame cfg0 c9st (runPool cfg0 c9st [PoolOp.payment 2 9 9 30]) 2 9 9 30
    (by decide) rfl).2.1

/-- C10 (amended): on every pool state reachable by overflow-free
sequences of pool calls, a withdrawal that passes the ownership check
(the caller's position account resolves) and the share-balance check with
a positive share count finds a nonzero divisor `total_shares`.  (The
degenerate withdrawal of `0` shares against a `0`-share position on a pool
with `total_shares = 0` does reach the division by zero — see the
counterexample.) -/
theorem C10_withdraw_divisor_nonzero (cfg : ProgramConfig) (st : PoolState)
    (w s : Nat) (position : LPPosition)
    (hreach : ReachableNF cfg st)
    (hfind : findPos st.positions w = some position)
    (hshares : s ≤ position.shares)
    (hpos : 0 < s) :
    st.pool.total_shares ≠ 0 := by
  obtain ⟨hts, hsum, hlt, hle⟩ := reachable_inv hreach
  have := shares_le_posShareSum (mem_of_findPos hfind)
  omega

/-- C10 witness: after one deposit of 10 shares, the divisor is nonzero. -/
theorem C10_witness :
    (runPool cfg0 (initialPoolState 0) [PoolOp.deposit 5 10 0]).pool.total_shares ≠ 0 :=
  C10_withdraw_divisor_nonzero cfg0 _ 5 10
    { owner := 5, pool := 0, shares := 10, deposited_at := 0 }
    (ReachableNF.deposit (initialPoolState 0) _ 5 10 0 (ReachableNF.init 0)
      (by decide) rfl)
    (by decide) (by decide) (by decide)

/-- C10 counterexample: `InitializePool`, `DepositToPool(0)`,
`WithdrawFromPool(0)` — the withdrawal passes the ownership check and the
share-balance check (`0 ≤ 0`) on a pool with `total_shares = 0`, and the
payout computation divides by zero (a Rust panic). -/
theorem C10_counterexample :
    (runPool cfg0 (initialPoolState 0) [PoolOp.deposit 5 0 0]).pool.total_shares = 0 ∧
    findPos (runPool cfg0 (initialPoolState 0) [PoolOp.deposit 5 0 0]).positions 5 =
      some { owner := 5, pool := 0, shares := 0, deposited_at := 0 } ∧
    stepPool cfg0 (runPool cfg0 (initialPoolState 0) [PoolOp.deposit 5 0 0])
      (PoolOp.withdraw 5 0) = Except.error PError.divideByZero := by
  refine ⟨rfl, rfl, rfl⟩

/-- C3 (amended): for every successful `deposit_to_pool` of `amount` on an
active pool, the issued shares are `amount` when `total_shares = 0` before
the call and `floor(amount * total_shares / total_deposited)` otherwise,
`total_deposited` and `available_liquidity` each grow by exactly `amount`,
and the caller's position gains exactly the issued shares — provided none
of the `u64` counters overflows (side conditions `hq`, `htd`, `hal`,
`hts2`, `hps`); without them the wrapping/truncating counterexample
applies. -/
theorem C3_deposit_accounting (pool : LiquidityPool) (posSlot : Option LPPosition)
    (d : Nat) (t : Int) (amount : Nat) (pool' : LiquidityPool) (pos' : LPPosition)
    (hq : specDepositShares pool amount < U64M)
    (htd : pool.total_deposited + amount < U64M)
    (hal : pool.available_liquidity + amount < U64M)
    (hts2 : pool.total_shares + specDepositShares pool amount < U64M)
    (hps : (loadedPos posSlot d pool).shares + specDepositShares pool amount < U64M)
    (hok : Processor.deposit_to_pool true true pool posSlot d t amount =
      Except.ok (pool', pos')) :
    pool'.total_deposited = pool.total_deposited + amount ∧
    pool'.available_liquidity = pool.available_liquidity + amount ∧
    pool'.total_shares = pool.total_shares + specDepositShares pool amount ∧
    pos'.shares = (loadedPos posSlot d pool).shares + specDepositShares pool amount ∧
    pos'.owner = (loadedPos posSlot d pool).owner := by
  obtain ⟨s0, hs, hact, hpool, hpos⟩ := deposit_to_pool_ok hok
  have hs0 : s0 = specDepositShares pool amount := by
    unfold sharesForDeposit at hs
    unfold specDepositShares at hq ⊢
    by_cases h0 : pool.total_shares = 0
    · rw [if_pos h0] at hs ⊢
      injection hs with hs
      exact hs.symm
    · rw [if_neg h0] at hs hq ⊢
      by_cases h1 : pool.total_deposited = 0
      · rw [if_pos h1] at hs; cases hs
      · rw [if_neg h1] at hs
        injection hs with hs
        rw [← hs]
        exact wcast_eq hq
  subst hs0
  refine ⟨?_, ?_, ?_, ?_, ?_⟩
  · rw [hpool]; exact wadd_eq htd
  · rw [hpool]; exact wadd_eq hal
  · rw [hpool]; exact wadd_eq hts2
  · rw [hpos]; exact wadd_eq hps
  · rw [hpos]

/-- C3 witness: depositing 2 into a 4/4 pool issues `floor(2*4/4) = 2`
shares and grows both counters by 2. -/
theorem C3_witness :
    c3poolAfter.total_deposited = c3pool.total_deposited + 2 ∧
    c3poolAfter.available_liquidity = c3pool.available_liquidity + 2 ∧
    c3poolAfter.total_shares = c3pool.total_shares + specDepositShares c3pool 2 ∧
    c3posAfter.shares = (loadedPos none 7 c3pool).shares + specDepositShares c3pool 2 ∧
    c3posAfter.owner = (loadedPos none 7 c3pool).owner :=
  C3_deposit_accounting c3pool none 7 3 2 c3poolAfter c3posAfter
    (by decide) (by decide) (by decide) (by decide) (by decide) rfl

/-- C3 counterexample: (A) a successful deposit of 1 on an active pool
with `total_deposited = u64::MAX` wraps `total_deposited` to 0 instead of
increasing it by the amount; (B) a successful deposit of 2 on an active
pool with `total_shares = u64::MAX`, `total_deposited = 1` credits the
position with the `u64`-truncated share count, not the widened floor
`2 * (2^64 - 1) / 1`. -/
theorem C3_counterexample :
    Processor.deposit_to_pool true true cePoolA none 5 0 1 =
      Except.ok (cePoolA', cePosA') ∧
    cePoolA'.total_deposited ≠ cePoolA.total_deposited + 1 ∧
    Processor.deposit_to_pool true true cePoolB none 5 0 2 =
      Except.ok (cePoolB', cePosB') ∧
    cePosB'.shares ≠ (loadedPos none 5 cePoolB).shares + specDepositShares cePoolB 2 := by
  refine ⟨by decide, by decide, by decide, by decide⟩

/-- C4 (amended): for every `withdraw_from_pool` of `shares` by the
position's owner with a signing capability, on a pool with
`total_shares ≠ 0` whose widened payout
`floor(shares * total_deposited / total_shares)` fits in `u64`: the call
fails with the insufficient-shares condition iff
`shares > position.shares`; given sufficient shares it fails with the
insufficient-liquidity condition iff the payout exceeds
`available_liquidity`; and on success the amount paid out is exactly that
floor.  (On `total_shares = 0` the code divides by zero, and when the
floor exceeds `u64::MAX` the code compares and pays the truncated value —
see the counterexample.) -/
theorem C4_withdraw_conditions (pool : LiquidityPool) (position : LPPosition)
    (w s : Nat)
    (hown : position.owner = w)
    (hts : ¬ pool.total_shares = 0)
    (hfit : specWithdrawAmount pool s < U64M) :
    (Processor.withdraw_from_pool true true pool (some position) w s =
        Except.error PError.insufficientShares ↔ position.shares < s) ∧
    (s ≤ position.shares →
      (Processor.withdraw_from_pool true true pool (some position) w s =
          Except.error PError.insufficientLiquidity ↔
        pool.available_liquidity < specWithdrawAmount pool s)) ∧
    (∀ pool' pos' paid,
      Processor.withdraw_from_pool true true pool (some position) w s =
        Except.ok (pool', pos', paid) → paid = specWithdrawAmount pool s) := by
  have hwc : wcast (s * pool.total_deposited / pool.total_shares) =
      specWithdrawAmount pool s := by
    unfold specWithdrawAmount at hfit ⊢
    exact wcast_eq hfit
  have hnotown : ¬ position.owner ≠ w := by simp [hown]
  by_cases hsh : position.shares < s
  · have he : Processor.withdraw_from_pool true true pool (some position) w s =
        Except.error PError.insufficientShares := by
      rw [withdraw_from_pool_unfold, if_neg hnotown, if_pos hsh]
    refine ⟨⟨fun _ => hsh, fun _ => he⟩, fun hle => absurd hsh (by omega), ?_⟩
    intro pool' pos' paid hok
    rw [he] at hok; cases hok
  · by_cases hal : pool.available_liquidity < specWithdrawAmount pool s
    · have he : Processor.withdraw_from_pool true true pool (some position) w s =
          Except.error PError.insufficientLiquidity := by
        rw [withdraw_from_pool_unfold, if_neg hnotown, if_neg hsh, if_neg hts, hwc,
          if_pos hal]
      refine ⟨⟨fun h => ?_, fun h => absurd h hsh⟩,
        fun _ => ⟨fun _ => hal, fun _ => he⟩, ?_⟩
      · rw [he] at h; injection h with h; cases h
      · intro pool' pos' paid hok
        rw [he] at hok; cases hok
    · have he : Processor.withdraw_from_pool true true pool (some position) w s =
          Except.ok
            ({ pool with
               total_deposited := wsub pool.total_deposited (specWithdrawAmount pool s)
               total_shares := wsub pool.total_shares s
               available_liquidity :=
                 wsub pool.available_liquidity (specWithdrawAmount pool s) },
             { position with shares := wsub position.shares s },
             specWithdrawAmount pool s) := by
        rw [withdraw_from_pool_unfold, if_neg hnotown, if_neg hsh, if_neg hts, hwc,
          if_neg hal]
      refine ⟨⟨fun h => ?_, fun h => absurd h hsh⟩,
        fun _ => ⟨fun h => ?_, fun h => absurd h hal⟩, ?_⟩
      · rw [he] at h; cases h
      · rw [he] at h; cases h
      · intro pool' pos' paid hok
        rw [he] at hok
        injection hok with hok
        exact (congrArg (fun x => x.2.2) hok).symm

/-- C4 witness: on a 100/100 pool, withdrawing 50 against a 40-share
position fails with the insufficient-shares condition. -/
theorem C4_witness :
    Processor.withdraw_from_pool true true c4wpool (some c4wpos) 7 50 =
      Except.error PError.insufficientShares :=
  (C4_withdraw_conditions c4wpool c4wpos 7 50 rfl (by decide) (by decide)).1.mpr
    (by decide)

/-- C4 counterexample: on a pool with `total_deposited = u64::MAX`,
`total_shares = 1`, withdrawing 2 shares succeeds and pays the truncated
`2^64 - 2` lamports, while the claimed floor is `2 * (2^64 - 1) / 1 =
2^65 - 2`, which also exceeds `available_liquidity` — so by the claim the
call should have failed with the insufficient-liquidity condition. -/
theorem C4_counterexample :
    Processor.withdraw_from_pool true true c4pool (some c4pos) 7 2 =
      Except.ok (c4pool', c4pos', U64M - 2) ∧
    U64M - 2 ≠ specWithdrawAmount c4pool 2 ∧
    c4pool.available_liquidity < specWithdrawAmount c4pool 2 ∧
    Processor.withdraw_from_pool true true c4pool (some c4pos) 7 2 ≠
      Except.error PError.insufficientLiquidity := by
  refine ⟨by decide, by decide, by decide, by decide⟩

/-- C2: the claim fails on the code — `Settled` is not terminal and the
state regresses: after the successful inbound sequence `MirrorGhost`,
`MintGhost`, `DestroyGhost` drives the record to `Settled`, a further
`CreateGhost` on the same slot succeeds (the handler performs no existence
check) and resets the state to `Created`. -/
theorem C2_settled_not_terminal :
    (runGhost cfg0 none c2ops).map GhostAccount.state = some GhostState.settled ∧
    ghostStepSucceeds cfg0 (runGhost cfg0 none c2ops) c2create = true ∧
    (runGhost cfg0 none (c2ops ++ [c2create])).map GhostAccount.state =
      some GhostState.created := by
  decide

/-- C5: against a record whose state is not the operation's required
predecessor, `LockGhost` (requires `Created`), `BurnGhost` (requires
`Locked`), `MintGhost` (requires `Burned`) and `DestroyGhost` (requires
`Minted` or `remote_ack`) each fail with `InvalidState` and leave the
record unchanged; in particular `CreateGhost` followed immediately by
`BurnGhost` fails with `InvalidState`.  (The call is validator-signed and
addresses the record: the slot's `ghost_id` equals the requested id.) -/
theorem C5_invalid_state_guards (cfg : ProgramConfig) (v gid : Nat)
    (g : GhostAccount) (t : Int)
    (hv : cfg.is_validator v = true) (hid : g.ghost_id = gid) :
    (g.state ≠ GhostState.created →
      Processor.lock_ghost cfg true v true true (some g) gid t =
        Except.error PError.invalidState ∧
      runGhost cfg (some g) [GhostOp.lock v gid t] = some g) ∧
    (∀ bp, g.state ≠ GhostState.locked →
      Processor.burn_ghost cfg true v true true (some g) gid bp t =
        Except.error PError.invalidState ∧
      runGhost cfg (some g) [GhostOp.burn v gid bp t] = some g) ∧
    (∀ mp r, g.state ≠ GhostState.burned →
      Processor.mint_ghost cfg true v true true (some g) gid mp r t =
        Except.error PError.invalidState ∧
      runGhost cfg (some g) [GhostOp.mint v gid mp r t] = some g) ∧
    (g.state ≠ GhostState.minted → g.remote_ack = false →
      Processor.destroy_ghost cfg true v true true (some g) gid =
        Except.error PError.invalidState ∧
      runGhost cfg (some g) [GhostOp.destroy v gid] = some g) ∧
    (∀ payer a ch lo hi stok dtok t2 bp t3 g1,
      Processor.create_ghost true true true payer gid a ch lo hi stok dtok t2 =
        Except.ok g1 →
      Processor.burn_ghost cfg true v true true (some g1) gid bp t3 =
        Except.error PError.invalidState) := by
  have hload : Processor.load_with_validator cfg true v true true (some g) gid =
      Except.ok g :=
    load_with_validator_ok hv (Or.inr hid)
  refine ⟨?_, ?_, ?_, ?_, ?_⟩
  · intro hstate
    have he : Processor.lock_ghost cfg true v true true (some g) gid t =
        Except.error PError.invalidState := by
      unfold Processor.lock_ghost
      rw [hload]
      exact if_pos hstate
    exact ⟨he, by simp [runGhost, stepGhost, he]⟩
  · intro bp hstate
    have he : Processor.burn_ghost cfg true v true true (some g) gid bp t =
        Except.error PError.invalidState := by
      unfold Processor.burn_ghost
      rw [hload]
      exact if_pos hstate
    exact ⟨he, by simp [runGhost, stepGhost, he]⟩
  · intro mp r hstate
    have he : Processor.mint_ghost cfg true v true true (some g) gid mp r t =
        Except.error PError.invalidState := by
      unfold Processor.mint_ghost
      rw [hload]
      exact if_pos hstate
    exact ⟨he, by simp [runGhost, stepGhost, he]⟩
  · intro hstate hack
    have he : Processor.destroy_ghost cfg true v true true (some g) gid =
        Except.error PError.invalidState := by
      unfold Processor.destroy_ghost
      rw [hload]
      exact if_pos ⟨hstate, hack⟩
    exact ⟨he, by simp [runGhost, stepGhost, he]⟩
  · intro payer a ch lo hi stok dtok t2 bp t3 g1 hcreate
    unfold Processor.create_ghost at hcreate
    rw [if_neg (by simp), if_neg (by simp), if_neg (by simp)] at hcreate
    injection hcreate with hcreate
    have hload1 : Processor.load_with_validator cfg true v true true (some g1) gid =
        Except.ok g1 :=
      load_with_validator_ok hv (Or.inr (by rw [← hcreate]; rfl))
    unfold Processor.burn_ghost
    rw [hload1]
    refine if_pos ?_
    rw [← hcreate]
    intro hc
    cases hc

/-- C5 witness: `LockGhost` against a `Settled` record fails with
`InvalidState`. -/
theorem C5_witness :
    Processor.lock_ghost cfg0 true 2 true true (some c5g) 1 0 =
      Except.error PError.invalidState :=
  ((C5_invalid_state_guards cfg0 2 1 c5g 0 (by decide) rfl).1 (by decide)).1

/-- C7: the claim fails on the code — `initialize` performs no
initialized-slot check: the first call (signed, program-owned slot)
produces the registry with the given admin and an empty validator list,
and it fails with `MissingSigner` / `IncorrectOwner` as claimed, but a
second call against the already-initialized slot also succeeds and
overwrites the registry (the admin becomes 9). -/
theorem C7_reinitialize_not_prevented :
    Processor.initialize_config false true none 7 1 3 =
      Except.error PError.missingSigner ∧
    Processor.initialize_config true false none 7 1 3 =
      Except.error PError.incorrectProgramId ∧
    Processor.initialize_config true true none 7 1 3 = Except.ok c7cfg1 ∧
    Processor.initialize_config true true (some c7cfg1) 9 1 3 = Except.ok c7cfg2 := by
  refine ⟨rfl, rfl, rfl, rfl⟩

/-- C8: a validator-signed `mirror_ghost` call addressing its record (the
slot's `ghost_id` equals the requested id, or the slot is at `None`) fails
with `GhostExists` iff the existing record's state is not `None` and its
`is_remote` flag is false; on success it overwrites the record with
`state = Burned`, `is_remote = true`, the given amount, burn proof and
token pair, the initiator reset to the empty identity, and
`destination_chain` carrying the given source chain id. -/
theorem C8_mirror_guard (cfg : ProgramConfig) (v gid srcChain amt bp stok dtok : Nat)
    (t : Int) (slot : Option GhostAccount)
    (hv : cfg.is_validator v = true)
    (hid : (slot.getD defaultGhost).state = GhostState.none ∨
           (slot.getD defaultGhost).ghost_id = gid) :
    (Processor.mirror_ghost cfg true v true true slot gid srcChain amt bp stok dtok t =
        Except.error PError.ghostExists ↔
      ((slot.getD defaultGhost).state ≠ GhostState.none ∧
       (slot.getD defaultGhost).is_remote = false)) ∧
    (∀ g', Processor.mirror_ghost cfg true v true true slot gid srcChain amt bp stok dtok t =
        Except.ok g' →
      g' = { slot.getD defaultGhost with
             ghost_id := gid, initiator := 0, source_token := stok
             destination_token := dtok, destination_chain := srcChain
             state := GhostState.burned, amount := amt, burn_ts := t
             burn_proof := bp, is_remote := true }) := by
  have hload := load_with_validator_ok hv hid
  by_cases hex : (slot.getD defaultGhost).state ≠ GhostState.none ∧
      (slot.getD defaultGhost).is_remote = false
  · have he : Processor.mirror_ghost cfg true v true true slot gid srcChain amt bp
        stok dtok t = Except.error PError.ghostExists := by
      unfold Processor.mirror_ghost
      rw [hload]
      exact if_pos hex
    refine ⟨⟨fun _ => hex, fun _ => he⟩, ?_⟩
    intro g' hok
    rw [he] at hok; cases hok
  · have he : Processor.mirror_ghost cfg true v true true slot gid srcChain amt bp
        stok dtok t = Except.ok
          { slot.getD defaultGhost with
            ghost_id := gid, initiator := 0, source_token := stok
            destination_token := dtok, destination_chain := srcChain
            state := GhostState.burned, amount := amt, burn_ts := t
            burn_proof := bp, is_remote := true } := by
      unfold Processor.mirror_ghost
      rw [hload]
      exact if_neg hex
    refine ⟨⟨fun h => ?_, fun h => absurd h hex⟩, ?_⟩
    · rw [he] at h; cases h
    · intro g' hok
      rw [he] at hok
      injection hok with hok
      exact hok.symm

/-- C8 witness: mirroring onto a live outbound record fails with
`GhostExists`. -/
theorem C8_witness :
    Processor.mirror_ghost cfg0 true 2 true true (some c8g) 7 5 100 11 21 22 0 =
      Except.error PError.ghostExists :=
  (C8_mirror_guard cfg0 2 7 5 100 11 21 22 0 (some c8g) (by decide)
    (Or.inr rfl)).1.mpr (by decide)

end GhostProtocol
